import Mathlib

/-!
Shallow embedding of the StablecoinEngine exchange core: the Kraken deposit
protocol (PrepareDeposit and its helpers, from the `kraken` package source)
and the transaction-mutator conversion adapters (from `api/exchange.go`).

Go `error` values are modelled by their message `String` (every error in the
embedded code is built with `fmt.Errorf`), except at the `PrepareDeposit`
boundary where the distinguishable error values of `api/exchange.go` are an
inductive type.  Go panics (aborts) are a distinguished `GoRes.panicked`
outcome.  Go `float64` wire values are modelled as exact rationals: the
embedded code only moves them between representations at a fixed decimal
precision.
-/

namespace StablecoinEngine

/-- Model of Go `strings.HasPrefix pre` applied to `s` (byte-for-byte prefix,
modelled on the character list of the string). -/
def goStrHasPre (s pre : String) : Bool :=
  pre.data.isPrefixOf s.data

/-- Helper for `goStrContains`: does `hay` contain `needle` as a contiguous
sublist? -/
def goContainsAux (needle : List Char) : List Char → Bool
  | [] => needle.isEmpty
  | c :: rest => needle.isPrefixOf (c :: rest) || goContainsAux needle rest

/-- Model of Go `strings.Contains s sub`. -/
def goStrContains (s sub : String) : Bool :=
  goContainsAux sub.data s.data

/-- A dynamically-typed venue response value (Go `interface{}` as produced by
the generic remote query): string, float64 (modelled as an exact rational),
bool, array, or string-keyed map (modelled as an association list). -/
inductive JValue where
  | str (s : String)
  | num (f : Rat)
  | bool (b : Bool)
  | arr (elems : List JValue)
  | obj (fields : List (String × JValue))

/-- Model of Go `reflect.TypeOf(v)` rendering for the dynamic values above. -/
def typeName : JValue → String
  | .str _ => "string"
  | .num _ => "float64"
  | .bool _ => "bool"
  | .arr _ => "[]interface {}"
  | .obj _ => "map[string]interface {}"

/-- Coarse model of Go `fmt` `%v` rendering of a dynamic value (the embedded
code only ever places this rendering inside error messages; no claim depends
on its exact form). -/
def jvRender : JValue → String
  | .str s => s
  | .num f => toString f
  | .bool b => if b then "true" else "false"
  | .arr _ => "[...]"
  | .obj _ => "map[...]"

/-- Model of Go map lookup `v, ok := m[key]` over the association-list model
of a string-keyed map (keys are unique in a Go map; the first binding wins). -/
def mapLookup (m : List (String × JValue)) (key : String) : Option JValue :=
  match m.find? (fun kv => kv.1 == key) with
  | some kv => some kv.2
  | none => none

/-- Rounding of the fraction `a / b` (with `b` positive) to the nearest
integer, half away from zero, as Go `math.Round` on the exact value. -/
def halfAwayDiv (a : Int) (b : Nat) : Int :=
  if 0 ≤ a then (2 * a + b) / (2 * (b : Int))
  else -((2 * (-a) + b) / (2 * (b : Int)))

/-- Rounding half away from zero of a rational, as Go `math.Round`. -/
def roundHalfAway (q : Rat) : Int :=
  halfAwayDiv q.num q.den

/-- Round a rational to `p` decimal places (half away from zero): the exact
value of Go `math.Round(f * 10^p) / 10^p`. -/
def roundToPrec (q : Rat) (p : Nat) : Rat :=
  mkRat (halfAwayDiv (q.num * 10 ^ p) q.den) (10 ^ p)

/-- Modelled from the spec: the `number` package (the fixed-precision decimal
`Number` type) is not under src/.  "Number: immutable decimal value with a
fixed display/comparison precision; constructible from a string or a float."
The stored value is the underlying value rounded at the fixed precision. -/
structure Number where
  value : Rat
  precision : Nat
deriving DecidableEq

/-- Model of `Number.AsFloat`. -/
def Number.asFloat (n : Number) : Rat := n.value

/-- Modelled from the spec: `number.FromFloat(f, precision)` — "float is
converted at the same fixed precision". -/
def FromFloat (f : Rat) (precision : Nat) : Number :=
  ⟨roundToPrec f precision, precision⟩

/-- Numeric value of a digit list (most significant first). -/
def digitsToNat (ds : List Char) : Nat :=
  ds.foldl (fun acc c => acc * 10 + (c.toNat - 48)) 0

/-- Parse an unsigned decimal literal (digits, optionally a point and more
digits) as an exact rational. -/
def parseUnsignedDec (cs : List Char) : Option Rat :=
  match cs.splitOn '.' with
  | [ds] =>
    if ds.isEmpty then none
    else if ds.all Char.isDigit then some (mkRat (digitsToNat ds) 1) else none
  | [ds, fs] =>
    if ds.isEmpty && fs.isEmpty then none
    else if ds.all Char.isDigit && fs.all Char.isDigit then
      some (mkRat (digitsToNat ds * 10 ^ fs.length + digitsToNat fs) (10 ^ fs.length))
    else none
  | _ => none

/-- Parse a signed decimal literal as an exact rational. -/
def parseDecimal (s : String) : Option Rat :=
  match s.data with
  | '-' :: rest => (parseUnsignedDec rest).map (fun q => mkRat (-q.num) q.den)
  | '+' :: rest => parseUnsignedDec rest
  | cs => parseUnsignedDec cs

/-- Modelled from the spec: `number.FromString(s, precision)` — "string is
parsed as a fixed-precision decimal" (the Go code parses with
`strconv.ParseFloat` and rounds at the precision; exponent forms are not
needed by any claim). -/
def FromString (s : String) (precision : Nat) : Except String Number :=
  match parseDecimal s with
  | none => .error ("invalid number string: " ++ s)
  | some f => .ok (FromFloat f precision)

/-- `const numberPrecision = 10` of the kraken package. -/
def numberPrecision : Nat := 10

/-- `const prefixFieldNotFound` of the kraken package. -/
def prefixFieldNotFound : String := "could not find field in map of PrepareDeposit"

/-- `checkKeyPresent` of the kraken package. -/
def checkKeyPresent (m : List (String × JValue)) (key : String) : Except String JValue :=
  match mapLookup m key with
  | some v => .ok v
  | none => .error (prefixFieldNotFound ++ ": " ++ key)

/-- `makeParseError` of the kraken package. -/
def makeParseError (field dataType methodAPI : String) (value : JValue) : String :=
  "could not parse the field '" ++ field ++ "' as a " ++ dataType ++
    " in the response from " ++ methodAPI ++ ": value=" ++ jvRender value ++
    ", type=" ++ typeName value

/-- `parseString` of the kraken package. -/
def parseString (m : List (String × JValue)) (key methodAPI : String) :
    Except String String :=
  match checkKeyPresent m key with
  | .error e => .error e
  | .ok v =>
    match v with
    | .str s => .ok s
    | _ => .error (makeParseError key "string" methodAPI v)

/-- `parseBool` of the kraken package. -/
def parseBool (m : List (String × JValue)) (key methodAPI : String) :
    Except String Bool :=
  match checkKeyPresent m key with
  | .error e => .error e
  | .ok v =>
    match v with
    | .bool b => .ok b
    | _ => .error (makeParseError key "bool" methodAPI v)

/-- `parseStringAsNumber` of the kraken package. -/
def parseStringAsNumber (m : List (String × JValue)) (key methodAPI : String) :
    Except String Number :=
  match parseString m key methodAPI with
  | .error e => .error e
  | .ok s =>
    match FromString s numberPrecision with
    | .error e2 =>
      .error ("unable to convert the string field '" ++ key ++
        "' to a number in the response from " ++ methodAPI ++ ": value=" ++ s ++
        ", error=" ++ e2)
    | .ok n => .ok n

/-- `parseFloatAsNumber` of the kraken package. -/
def parseFloatAsNumber (m : List (String × JValue)) (key methodAPI : String) :
    Except String Number :=
  match checkKeyPresent m key with
  | .error e => .error e
  | .ok v =>
    match v with
    | .num f => .ok (FromFloat f numberPrecision)
    | _ => .error (makeParseError key "float" methodAPI v)

/-- `parseNumber` of the kraken package: dispatches on the dynamic
representation of the field. -/
def parseNumber (m : List (String × JValue)) (key methodAPI : String) :
    Except String Number :=
  match checkKeyPresent m key with
  | .error e => .error e
  | .ok v =>
    match v with
    | .str _ => parseStringAsNumber m key methodAPI
    | .num _ => parseFloatAsNumber m key methodAPI
    | _ => .error (makeParseError key "number" methodAPI v)

/-- Go `int64(f)` on a float: truncation toward zero (modelled on the exact
rational). -/
def goInt64OfFloat (q : Rat) : Int :=
  if 0 ≤ q.num then q.num / q.den else -((-q.num) / q.den)

/-- `depositMethod` of the kraken package. -/
structure depositMethod where
  method : String
  limit : Option Number
  fee : Option Number
  genAddress : Bool
deriving DecidableEq

/-- `depositAddress` of the kraken package. -/
structure depositAddress where
  address : String
  expireTs : Int
  isNew : Bool
deriving DecidableEq

/-- `PrepareDepositResult` of `api/exchange.go`. -/
structure PrepareDepositResult where
  fee : Option Number
  address : String
  expireTs : Int
deriving DecidableEq

/-- `parseDepositAddress` of the kraken package: a missing "new" field
defaults to false, any other `parseBool` failure on "new" propagates. -/
def parseDepositAddress (m : List (String × JValue)) :
    Except String depositAddress :=
  match parseString m "address" "DepositAddresses" with
  | .error e => .error e
  | .ok address =>
    match parseNumber m "expiretm" "DepositAddresses" with
    | .error e => .error e
    | .ok expireN =>
      let expireTs := goInt64OfFloat expireN.asFloat
      match parseBool m "new" "DepositAddresses" with
      | .ok isNew => .ok ⟨address, expireTs, isNew⟩
      | .error e =>
        if goStrHasPre e prefixFieldNotFound then
          -- new may be missing in which case it is false
          .ok ⟨address, expireTs, false⟩
        else
          .error e

/-- `parseDepositMethods` of the kraken package. -/
def parseDepositMethods (m : List (String × JValue)) :
    Except String depositMethod :=
  match parseString m "method" "DepositMethods" with
  | .error e => .error e
  | .ok method =>
    -- limit is special as it can be a boolean or a number
    let limitRes : Except String (Option Number) :=
      match parseBool m "limit" "DepositMethods" with
      | .error _ =>
        match parseNumber m "limit" "DepositMethods" with
        | .error e2 => .error e2
        | .ok n => .ok (some n)
      | .ok limB =>
        if limB then
          .error ("invalid value for 'limit' as a response from DepositMethods: boolean value of 'limit' should never be 'true' as it should be a number in that case")
        else
          .ok none
    match limitRes with
    | .error e => .error e
    | .ok limit =>
      let feeRes : Except String (Option Number) :=
        match parseNumber m "fee" "DepositMethods" with
        | .ok n => .ok (some n)
        | .error e =>
          if goStrHasPre e prefixFieldNotFound then
            -- fee may be missing in which case it is null
            .ok none
          else
            .error e
      match feeRes with
      | .error e => .error e
      | .ok fee =>
        match parseBool m "gen-address" "DepositMethods" with
        | .error e => .error e
        | .ok genAddress => .ok ⟨method, limit, fee, genAddress⟩

/-- Outcome of a Go function that can return a value, return an error, or
abort the process with a panic. -/
inductive GoRes (ε α : Type) where
  | ok (a : α)
  | err (e : ε)
  | panicked (msg : String)
deriving DecidableEq

/-- The Go runtime message for indexing element 0 of an empty slice. -/
def indexOutOfRangeMsg : String := "runtime error: index out of range [0] with length 0"

/-- The type of the remote-query boundary `k.api.Query`: a named operation
with a string-keyed parameter map, returning an untyped value or an error. -/
def QueryFn : Type := String → List (String × String) → Except String JValue

/-- `getDepositMethods` of the kraken package: indexes `arr[0]` of the
response array unconditionally, so an empty array is a panic, not an error. -/
def getDepositMethods (query : QueryFn) (asset : String) :
    GoRes String depositMethod :=
  match query "DepositMethods" [("asset", asset)] with
  | .error e => .err e
  | .ok resp =>
    match resp with
    | .arr l =>
      match l with
      | [] => .panicked indexOutOfRangeMsg
      | first :: _ =>
        match first with
        | .obj m =>
          match parseDepositMethods m with
          | .ok dm => .ok dm
          | .error e => .err e
        | other =>
          .err ("could not parse inner response type of returned []interface {} from DepositMethods: " ++ typeName other)
    | other =>
      .err ("could not parse response type from DepositMethods: " ++ typeName other)

/-- The element loop of `getDepositAddress`: parse each array element as a
deposit address, failing the whole listing on the first bad element. -/
def parseAddressList : List JValue → Except String (List depositAddress)
  | [] => .ok []
  | elem :: rest =>
    match elem with
    | .obj m =>
      match parseDepositAddress m with
      | .error e => .error e
      | .ok da =>
        match parseAddressList rest with
        | .error e => .error e
        | .ok tail => .ok (da :: tail)
    | other =>
      .error ("could not parse inner response type of returned []interface {} from DepositAddresses: " ++ typeName other)

/-- `getDepositAddress` of the kraken package ("new" is sent only when it is
to be true, as Kraken treats a present "new" as true). -/
def getDepositAddress (query : QueryFn) (asset method : String)
    (genAddress : Bool) : Except String (List depositAddress) :=
  let input := [("asset", asset), ("method", method)] ++
    (if genAddress then [("new", "true")] else [])
  match query "DepositAddresses" input with
  | .error e => .error e
  | .ok resp =>
    match resp with
    | .arr l => parseAddressList l
    | other =>
      .error ("could not parse response type from DepositAddresses: " ++ typeName other)

/-- `keepOnlyNew` of the kraken package (the source builds `ret` by appending
each address whose `isNew` flag is set, in order). -/
def keepOnlyNew (addressList : List depositAddress) : List depositAddress :=
  addressList.foldl (fun ret a => if a.isNew then ret ++ [a] else ret) []

/-- The distinguishable error values `PrepareDeposit` can return
(`api/exchange.go` factories carry the offending Numbers; every other error
is an opaque Go error carrying its message). -/
inductive Err where
  | goErr (msg : String)
  | depositAmountAboveLimit (amount limit : Number)
  | tooManyDepositAddresses
deriving DecidableEq

/-- The venue signal string recognized inside `PrepareDeposit`. -/
def tooManySignal : String := "EFunding:Too many addresses"

/-- One iteration of the `for` loop of `PrepareDeposit`, at flag value
`generateNewAddress`; alongside the Go result it counts the address-listing
calls made and how many of them forced generation.  `retry` is the result
the loop continues with when no fresh address remains and the flag was not
yet set (that branch is reachable only when `generateNewAddress = false`,
and sets the flag).  The branch taking `addressList[len(addressList)-1]` is
modelled by `List.getLast?` (`some` exactly when `len(addressList) > 0`). -/
def depositIter (query : QueryFn) (krakenAsset : String) (dm : depositMethod)
    (generateNewAddress : Bool)
    (retry : GoRes Err PrepareDepositResult × Nat × Nat) :
    GoRes Err PrepareDepositResult × Nat × Nat :=
  match getDepositAddress query krakenAsset dm.method generateNewAddress with
  | .error e =>
    if goStrContains e tooManySignal then
      (.err .tooManyDepositAddresses, 1, if generateNewAddress then 1 else 0)
    else
      (.err (.goErr e), 1, if generateNewAddress then 1 else 0)
  | .ok addressList0 =>
    -- discard addresses that have been used up
    let addressList := keepOnlyNew addressList0
    match addressList.getLast? with
    | some earliestAddress =>
      (.ok ⟨dm.fee, earliestAddress.address, earliestAddress.expireTs⟩, 1,
        if generateNewAddress then 1 else 0)
    | none =>
      match generateNewAddress with
      | true =>
        -- error if we just tried to generate a new address which failed
        (.err (.goErr "attempt to generate a new address failed"), 1, 1)
      | false =>
        -- retry the loop by attempting to generate a new address
        (retry.1, retry.2.1 + 1, retry.2.2)

/-- A value the `retry` argument is never read at (the flag-true iteration
returns in every branch before reading it; `depositIter_true_retry` below
proves the irrelevance). -/
def unreachableRetry : GoRes Err PrepareDepositResult × Nat × Nat :=
  (.panicked "unreachable", 0, 0)

/-- The `for` loop of `PrepareDeposit` at the given flag value: the flag
only ever moves from false to true, so the loop is its single unrolling —
the flag-false iteration retrying into the flag-true iteration, which never
retries. -/
def depositLoop (query : QueryFn) (krakenAsset : String) (dm : depositMethod) :
    Bool → GoRes Err PrepareDepositResult × Nat × Nat
  | true => depositIter query krakenAsset dm true unreachableRetry
  | false =>
    depositIter query krakenAsset dm false
      (depositIter query krakenAsset dm true unreachableRetry)

/-- The capability surface `PrepareDeposit` uses from `krakenExchange`: the
asset converter and the remote-query boundary. -/
structure KrakenAPI where
  assetToString : String → Except String String
  query : QueryFn

/-- `PrepareDeposit` of the kraken package, instrumented with the
address-listing call counts of `depositLoop` (zero calls on the paths that
fail before the loop). -/
def PrepareDeposit (k : KrakenAPI) (asset : String) (amount : Number) :
    GoRes Err PrepareDepositResult × Nat × Nat :=
  match k.assetToString asset with
  | .error e => (.err (.goErr e), 0, 0)
  | .ok krakenAsset =>
    match getDepositMethods k.query krakenAsset with
    | .panicked msg => (.panicked msg, 0, 0)
    | .err e => (.err (.goErr e), 0, 0)
    | .ok dm =>
      match dm.limit with
      | some limit =>
        if limit.asFloat < amount.asFloat then
          (.err (.depositAmountAboveLimit amount limit), 0, 0)
        else
          depositLoop k.query krakenAsset dm false
      | none => depositLoop k.query krakenAsset dm false

/-- A txnbuild asset: `NativeAsset` (empty code/issuer) or `CreditAsset`,
exposing `GetCode`, `GetIssuer`, `IsNative` as fields. -/
structure TAsset where
  code : String
  issuer : String
  native : Bool
deriving DecidableEq

/-- A `build.Asset` of the old SDK (Code, Issuer, Native). -/
structure BuildAsset where
  code : String
  issuer : String
  native : Bool
deriving DecidableEq

/-- A `build.Rate` (Selling, Buying, Price as the string form). -/
structure Rate where
  selling : BuildAsset
  buying : BuildAsset
  price : String
deriving DecidableEq

/-- An `xdr.Price` (numerator, denominator; int32 in Go). -/
structure XdrPrice where
  n : Int
  d : Int
deriving DecidableEq

/-- An `xdr` asset: native flag, or code and issuer. -/
structure XdrAsset where
  native : Bool
  code : String
  issuer : String
deriving DecidableEq

/-- The xdr offer operation body carried by a `build.ManageOfferBuilder`
(`MO` or `PO`): selling/buying assets, amount in stroops, price, offer id. -/
structure XdrOfferOp where
  selling : XdrAsset
  buying : XdrAsset
  amount : Int
  price : XdrPrice
  offerId : Int
deriving DecidableEq

/-- A `build.ManageOfferBuilder` as the adapters read it: the `PassiveOffer`
flag, the `MO` and `PO` xdr bodies, and the source account of `O`. -/
structure ManageOfferBuilder where
  passiveOffer : Bool
  mo : XdrOfferOp
  po : XdrOfferOp
  sourceAccount : Option String
deriving DecidableEq

/-- A `build.TransactionMutator` as the adapters inspect it: a
`ManageOfferBuilder` by value, by pointer, or any other mutator kind. -/
inductive TransactionMutator where
  | mob (m : ManageOfferBuilder)
  | mobPtr (m : ManageOfferBuilder)
  | other (tag : String)
deriving DecidableEq

/-- A `txnbuild.ManageSellOffer`. -/
structure ManageSellOffer where
  amount : String
  offerId : Int
  price : String
  selling : TAsset
  buying : TAsset
  sourceAccount : Option String
deriving DecidableEq

/-- A `txnbuild.CreatePassiveSellOffer`. -/
structure CreatePassiveSellOffer where
  amount : String
  price : String
  selling : TAsset
  buying : TAsset
  sourceAccount : Option String
deriving DecidableEq

/-- A `txnbuild.Operation` as the adapters inspect or emit it. -/
inductive Operation where
  | passiveSell (o : CreatePassiveSellOffer)
  | manageSell (o : ManageSellOffer)
  | other (tag : String)
deriving DecidableEq

/-- Left-pad a numeral string with zeros to length `k`. -/
def padZeros (k : Nat) (s : String) : String :=
  String.mk (List.replicate (k - s.length) '0') ++ s

/-- Go `fmt.Sprintf` with verb `%.7f`, modelled exactly on the rational value
(the adapters only apply it to quotients of the xdr integer fields). -/
def fmt7f (q : Rat) : String :=
  let r := roundHalfAway (q * 10 ^ 7)
  let core := fun (n : Nat) =>
    toString (n / 10 ^ 7) ++ "." ++ padZeros 7 (toString (n % 10 ^ 7))
  if r < 0 then "-" ++ core (-r).toNat else core r.toNat

/-- The txnbuild asset an xdr asset extracts to (`MustExtract` on non-native
assets, `NativeAsset{}` otherwise), as in `ConvertMOB2MSO`/`ConvertMOB2PSO`. -/
def xdrToTxnAsset (a : XdrAsset) : TAsset :=
  if a.native then ⟨"", "", true⟩ else ⟨a.code, a.issuer, false⟩

/-- `ConvertMOB2MSO` of `api/exchange.go`: amount and price are the `%.7f`
renderings of `MO.Amount/10^7` and `MO.Price.N/MO.Price.D`. -/
def ConvertMOB2MSO (mob : ManageOfferBuilder) : ManageSellOffer :=
  ⟨fmt7f ((mob.mo.amount : Rat) / 10 ^ 7),
   mob.mo.offerId,
   fmt7f ((mob.mo.price.n : Rat) / (mob.mo.price.d : Rat)),
   xdrToTxnAsset mob.mo.selling,
   xdrToTxnAsset mob.mo.buying,
   mob.sourceAccount⟩

/-- `ConvertMOB2PSO` of `api/exchange.go` (reads the `PO` body). -/
def ConvertMOB2PSO (mob : ManageOfferBuilder) : CreatePassiveSellOffer :=
  ⟨fmt7f ((mob.po.amount : Rat) / 10 ^ 7),
   fmt7f ((mob.po.price.n : Rat) / (mob.po.price.d : Rat)),
   xdrToTxnAsset mob.po.selling,
   xdrToTxnAsset mob.po.buying,
   mob.sourceAccount⟩

/-- The `build.Asset` built from a txnbuild asset inside
`ConvertOperation2TM` (`Code: GetCode, Issuer: GetIssuer, Native: IsNative`). -/
def txnToBuildAsset (a : TAsset) : BuildAsset := ⟨a.code, a.issuer, a.native⟩

/-- The loop body of `ConvertOperation2TM` on one operation. `B` is the
external `build.ManageOffer` constructor (with the `SourceAccount` mutation
folded in), quantified over since the `build` package is an external
collaborator: arguments are the passive flag, amount, rate, offer id and
source account, in source order. `none` models the panic on an operation of
any other kind. -/
def convertOp2TMElem (B : Bool → String → Rate → Int → Option String → ManageOfferBuilder) :
    Operation → Option TransactionMutator
  | .passiveSell o =>
    some (.mob (B true o.amount
      ⟨txnToBuildAsset o.selling, txnToBuildAsset o.buying, o.price⟩ 0 o.sourceAccount))
  | .manageSell o =>
    some (.mob (B false o.amount
      ⟨txnToBuildAsset o.selling, txnToBuildAsset o.buying, o.price⟩ o.offerId o.sourceAccount))
  | .other _ => none

/-- `ConvertOperation2TM` of `api/exchange.go`: the append loop over the
operations; a non-convertible operation panics (modelled as `none`). -/
def ConvertOperation2TM (B : Bool → String → Rate → Int → Option String → ManageOfferBuilder) :
    List Operation → Option (List TransactionMutator)
  | [] => some []
  | o :: rest =>
    match convertOp2TMElem B o with
    | none => none
    | some m =>
      match ConvertOperation2TM B rest with
      | none => none
      | some tail => some (m :: tail)

/-- The loop body of `ConvertTM2MSO` on one mutator: a `ManageOfferBuilder`
by value or by pointer goes through `ConvertMOB2MSO`; anything else panics. -/
def convertTM2MSOElem : TransactionMutator → Option ManageSellOffer
  | .mob m => some (ConvertMOB2MSO m)
  | .mobPtr m => some (ConvertMOB2MSO m)
  | .other _ => none

/-- `ConvertTM2MSO` of `api/exchange.go`. -/
def ConvertTM2MSO : List TransactionMutator → Option (List ManageSellOffer)
  | [] => some []
  | m :: rest =>
    match convertTM2MSOElem m with
    | none => none
    | some mso =>
      match ConvertTM2MSO rest with
      | none => none
      | some tail => some (mso :: tail)

/-- The loop body of `ConvertSellOfferBuildersToSellOps` on one mutator:
passive builders become `CreatePassiveSellOffer` ops, others
`ManageSellOffer` ops; any other mutator kind panics. -/
def convertSellOfferElem : TransactionMutator → Option Operation
  | .mob m =>
    some (if m.passiveOffer then .passiveSell (ConvertMOB2PSO m)
          else .manageSell (ConvertMOB2MSO m))
  | .mobPtr m =>
    some (if m.passiveOffer then .passiveSell (ConvertMOB2PSO m)
          else .manageSell (ConvertMOB2MSO m))
  | .other _ => none

/-- `ConvertSellOfferBuildersToSellOps` of `api/exchange.go`. -/
def ConvertSellOfferBuildersToSellOps :
    List TransactionMutator → Option (List Operation)
  | [] => some []
  | m :: rest =>
    match convertSellOfferElem m with
    | none => none
    | some op =>
      match ConvertSellOfferBuildersToSellOps rest with
      | none => none
      | some tail => some (op :: tail)

/-! Helper lemmas shared by the claim theorems. -/

instance {ε α : Type} [DecidableEq ε] [DecidableEq α] :
    DecidableEq (Except ε α) := fun x y =>
  match x, y with
  | .ok a, .ok b =>
    if h : a = b then .isTrue (by rw [h]) else .isFalse (by simp [h])
  | .error e, .error f =>
    if h : e = f then .isTrue (by rw [h]) else .isFalse (by simp [h])
  | .ok _, .error _ => .isFalse (by simp)
  | .error _, .ok _ => .isFalse (by simp)

/-- The flag-true iteration returns in every branch before reading `retry`. -/
theorem depositIter_true_retry (query : QueryFn) (ka : String)
    (dm : depositMethod) (r r' : GoRes Err PrepareDepositResult × Nat × Nat) :
    depositIter query ka dm true r = depositIter query ka dm true r' := by
  unfold depositIter
  cases hga : getDepositAddress query ka dm.method true with
  | error e => rfl
  | ok l => cases (keepOnlyNew l).getLast? <;> rfl

/-- The defining equation of the Go `for` loop: one iteration at the current
flag, retrying (with the flag set) when it neither returns nor errors. -/
theorem depositLoop_eq (query : QueryFn) (ka : String) (dm : depositMethod)
    (gen : Bool) :
    depositLoop query ka dm gen
      = depositIter query ka dm gen (depositLoop query ka dm true) := by
  cases gen with
  | true => exact depositIter_true_retry query ka dm unreachableRetry _
  | false => rfl

theorem keepOnlyNew_go (l acc : List depositAddress) :
    l.foldl (fun ret a => if a.isNew then ret ++ [a] else ret) acc
      = acc ++ l.filter (fun a => a.isNew) := by
  induction l generalizing acc with
  | nil => simp
  | cons a t ih =>
    by_cases h : a.isNew = true
    · simp [List.foldl_cons, h, ih]
    · simp [List.foldl_cons, h, ih]

theorem keepOnlyNew_eq_filter (l : List depositAddress) :
    keepOnlyNew l = l.filter (fun a => a.isNew) := by
  simpa using keepOnlyNew_go l []

theorem mem_keepOnlyNew {a : depositAddress} {l : List depositAddress} :
    a ∈ keepOnlyNew l ↔ a ∈ l ∧ a.isNew = true := by
  simp [keepOnlyNew_eq_filter, List.mem_filter]

/-- The limit guard of `PrepareDeposit` passes: no venue limit, or the amount
does not exceed it. -/
def limitPasses (dm : depositMethod) (amount : Number) : Bool :=
  match dm.limit with
  | some limit => !(decide (limit.asFloat < amount.asFloat))
  | none => true

theorem depositIter_getLast (query : QueryFn) (ka : String) (dm : depositMethod)
    (gen : Bool) (retry : GoRes Err PrepareDepositResult × Nat × Nat)
    (addrs : List depositAddress) (a : depositAddress)
    (h1 : getDepositAddress query ka dm.method gen = .ok addrs)
    (h2 : (keepOnlyNew addrs).getLast? = some a) :
    depositIter query ka dm gen retry
      = (.ok ⟨dm.fee, a.address, a.expireTs⟩, 1, if gen then 1 else 0) := by
  unfold depositIter
  rw [h1]
  simp only [h2]

theorem depositLoop_getLast (query : QueryFn) (ka : String) (dm : depositMethod)
    (gen : Bool) (addrs : List depositAddress) (a : depositAddress)
    (h1 : getDepositAddress query ka dm.method gen = .ok addrs)
    (h2 : (keepOnlyNew addrs).getLast? = some a) :
    depositLoop query ka dm gen
      = (.ok ⟨dm.fee, a.address, a.expireTs⟩, 1, if gen then 1 else 0) := by
  rw [depositLoop_eq]
  exact depositIter_getLast query ka dm gen _ addrs a h1 h2

theorem PrepareDeposit_enters_loop (k : KrakenAPI) (asset : String)
    (amount : Number) (ka : String) (dm : depositMethod)
    (h1 : k.assetToString asset = .ok ka)
    (h2 : getDepositMethods k.query ka = .ok dm)
    (h3 : limitPasses dm amount = true) :
    PrepareDeposit k asset amount = depositLoop k.query ka dm false := by
  simp only [PrepareDeposit, h1, h2]
  cases hl : dm.limit with
  | none => rfl
  | some limit =>
    simp only [limitPasses, hl, Bool.not_eq_true', decide_eq_false_iff_not] at h3
    simp [h3]

/-! The concrete venue used to exercise the deposit protocol: the methods
query reports method "Stellar" with no limit, no fee; the address listing
returns two fresh addresses, "A" listed first and "B" listed second. -/

def cexMethodsObj : List (String × JValue) :=
  [("method", .str "Stellar"), ("limit", .bool false), ("gen-address", .bool true)]

def cexAddrA : List (String × JValue) :=
  [("address", .str "A"), ("expiretm", .num 0), ("new", .bool true)]

def cexAddrB : List (String × JValue) :=
  [("address", .str "B"), ("expiretm", .num 0), ("new", .bool true)]

def cexQuery : QueryFn := fun op _ =>
  if op == "DepositMethods" then .ok (.arr [.obj cexMethodsObj])
  else .ok (.arr [.obj cexAddrA, .obj cexAddrB])

def cexAPI : KrakenAPI := ⟨fun _ => .ok "XXLM", cexQuery⟩

/-- The Number 5 at precision 10, a deposit amount below any limit here. -/
def amount5 : Number := ⟨5, 10⟩

/-- C1: the claim says the address returned is the FIRST element in venue
list order of the filtered fresh list.  On a venue listing two fresh
addresses "A" then "B", the filtered list's first element is the "A"
address, but `PrepareDeposit` returns "B" (the source takes
`addressList[len(addressList)-1]`, the last element). -/
theorem C1_counterexample :
    getDepositAddress cexAPI.query "XXLM" "Stellar" false
        = .ok [⟨"A", 0, true⟩, ⟨"B", 0, true⟩]
    ∧ (keepOnlyNew [⟨"A", 0, true⟩, ⟨"B", 0, true⟩]).head?
        = some ⟨"A", 0, true⟩
    ∧ (PrepareDeposit cexAPI "XLM" amount5).1 = .ok ⟨none, "B", 0⟩
    ∧ ("B" : String) ≠ "A" := by
  refine ⟨by decide, by decide, by decide, by decide⟩

/-- C1 (amended): for every call to `PrepareDeposit` in which the filtered
fresh list is non-empty, the address returned is the LAST element in venue
list order of the filtered list, together with the method's fee and the
address's expiry timestamp.  Stated for the loop at either flag value, and
for `PrepareDeposit` entering the loop. -/
theorem C1_returns_last_fresh_address :
    (∀ (query : QueryFn) (ka : String) (dm : depositMethod) (gen : Bool)
        (addrs : List depositAddress) (a : depositAddress),
      getDepositAddress query ka dm.method gen = .ok addrs →
      (keepOnlyNew addrs).getLast? = some a →
      (depositLoop query ka dm gen).1 = .ok ⟨dm.fee, a.address, a.expireTs⟩)
    ∧ (∀ (k : KrakenAPI) (asset : String) (amount : Number) (ka : String)
        (dm : depositMethod) (addrs : List depositAddress) (a : depositAddress),
      k.assetToString asset = .ok ka →
      getDepositMethods k.query ka = .ok dm →
      limitPasses dm amount = true →
      getDepositAddress k.query ka dm.method false = .ok addrs →
      (keepOnlyNew addrs).getLast? = some a →
      (PrepareDeposit k asset amount).1 = .ok ⟨dm.fee, a.address, a.expireTs⟩) := by
  constructor
  · intro query ka dm gen addrs a h1 h2
    rw [depositLoop_getLast query ka dm gen addrs a h1 h2]
  · intro k asset amount ka dm addrs a h1 h2 h3 h4 h5
    rw [PrepareDeposit_enters_loop k asset amount ka dm h1 h2 h3,
      depositLoop_getLast k.query ka dm false addrs a h4 h5]

theorem depositIter_error (query : QueryFn) (ka : String) (dm : depositMethod)
    (gen : Bool) (r : GoRes Err PrepareDepositResult × Nat × Nat) (e : String)
    (h1 : getDepositAddress query ka dm.method gen = .error e) :
    depositIter query ka dm gen r
      = (if goStrContains e tooManySignal then .err .tooManyDepositAddresses
          else .err (.goErr e), 1, if gen then 1 else 0) := by
  simp only [depositIter, h1]
  split <;> rfl

theorem depositIter_retry (query : QueryFn) (ka : String) (dm : depositMethod)
    (r : GoRes Err PrepareDepositResult × Nat × Nat)
    (addrs : List depositAddress)
    (h1 : getDepositAddress query ka dm.method false = .ok addrs)
    (h2 : (keepOnlyNew addrs).getLast? = none) :
    depositIter query ka dm false r = (r.1, r.2.1 + 1, r.2.2) := by
  unfold depositIter
  rw [h1]
  simp only [h2]

theorem depositIter_genFailed (query : QueryFn) (ka : String)
    (dm : depositMethod) (r : GoRes Err PrepareDepositResult × Nat × Nat)
    (addrs : List depositAddress)
    (h1 : getDepositAddress query ka dm.method true = .ok addrs)
    (h2 : (keepOnlyNew addrs).getLast? = none) :
    depositIter query ka dm true r
      = (.err (.goErr "attempt to generate a new address failed"), 1, 1) := by
  unfold depositIter
  rw [h1]
  simp only [h2]

/-- Exhaustive case analysis of one loop iteration. -/
theorem depositIter_cases (query : QueryFn) (ka : String) (dm : depositMethod)
    (gen : Bool) (r : GoRes Err PrepareDepositResult × Nat × Nat) :
    (∃ e, getDepositAddress query ka dm.method gen = .error e ∧
      depositIter query ka dm gen r
        = (if goStrContains e tooManySignal then .err .tooManyDepositAddresses
            else .err (.goErr e), 1, if gen then 1 else 0))
    ∨ (∃ addrs a, getDepositAddress query ka dm.method gen = .ok addrs ∧
      (keepOnlyNew addrs).getLast? = some a ∧
      depositIter query ka dm gen r
        = (.ok ⟨dm.fee, a.address, a.expireTs⟩, 1, if gen then 1 else 0))
    ∨ (∃ addrs, getDepositAddress query ka dm.method gen = .ok addrs ∧
      (keepOnlyNew addrs).getLast? = none ∧ gen = true ∧
      depositIter query ka dm gen r
        = (.err (.goErr "attempt to generate a new address failed"), 1, 1))
    ∨ (∃ addrs, getDepositAddress query ka dm.method gen = .ok addrs ∧
      (keepOnlyNew addrs).getLast? = none ∧ gen = false ∧
      depositIter query ka dm gen r = (r.1, r.2.1 + 1, r.2.2)) := by
  cases hga : getDepositAddress query ka dm.method gen with
  | error e => exact .inl ⟨e, rfl, depositIter_error query ka dm gen r e hga⟩
  | ok addrs =>
    cases hl : (keepOnlyNew addrs).getLast? with
    | some a =>
      exact .inr (.inl ⟨addrs, a, rfl, hl,
        depositIter_getLast query ka dm gen r addrs a hga hl⟩)
    | none =>
      cases gen with
      | true =>
        exact .inr (.inr (.inl ⟨addrs, rfl, hl, rfl,
          depositIter_genFailed query ka dm r addrs hga hl⟩))
      | false =>
        exact .inr (.inr (.inr ⟨addrs, rfl, hl, rfl,
          depositIter_retry query ka dm r addrs hga hl⟩))

theorem depositIter_true_counts (query : QueryFn) (ka : String)
    (dm : depositMethod) (r : GoRes Err PrepareDepositResult × Nat × Nat) :
    (depositIter query ka dm true r).2.1 = 1
    ∧ (depositIter query ka dm true r).2.2 = 1 := by
  rcases depositIter_cases query ka dm true r with
    ⟨e, _, he⟩ | ⟨addrs, a, _, _, he⟩ | ⟨addrs, _, _, _, he⟩ | ⟨addrs, _, _, hgen, _⟩
  · rw [he]; exact ⟨rfl, rfl⟩
  · rw [he]; exact ⟨rfl, rfl⟩
  · rw [he]; exact ⟨rfl, rfl⟩
  · exact absurd hgen (by simp)

theorem depositLoop_counts (query : QueryFn) (ka : String) (dm : depositMethod)
    (gen : Bool) :
    1 ≤ (depositLoop query ka dm gen).2.1
    ∧ (depositLoop query ka dm gen).2.1 ≤ 2
    ∧ (depositLoop query ka dm gen).2.2 ≤ 1 := by
  cases gen with
  | true =>
    have h := depositIter_true_counts query ka dm unreachableRetry
    simp only [depositLoop]
    rw [h.1, h.2]
    exact ⟨le_refl 1, by norm_num, le_refl 1⟩
  | false =>
    simp only [depositLoop]
    rcases depositIter_cases query ka dm false
        (depositIter query ka dm true unreachableRetry) with
      ⟨e, _, he⟩ | ⟨addrs, a, _, _, he⟩ | ⟨addrs, _, _, hgen, _⟩ | ⟨addrs, _, _, _, he⟩
    · rw [he]; exact ⟨le_refl 1, by norm_num, by norm_num⟩
    · rw [he]; exact ⟨le_refl 1, by norm_num, by norm_num⟩
    · exact absurd hgen (by simp)
    · rw [he]
      have h := depositIter_true_counts query ka dm unreachableRetry
      rw [h.1, h.2]
      exact ⟨by norm_num, by norm_num, le_refl 1⟩

theorem PrepareDeposit_counts (k : KrakenAPI) (asset : String)
    (amount : Number) :
    (PrepareDeposit k asset amount).2.1 ≤ 2
    ∧ (PrepareDeposit k asset amount).2.2 ≤ 1 := by
  rcases hats : k.assetToString asset with e | ka
  · simp [PrepareDeposit, hats]
  · rcases hdm : getDepositMethods k.query ka with dm | e | m
    · rcases hlim : dm.limit with _ | limit
      · simp only [PrepareDeposit, hats, hdm, hlim]
        exact ⟨(depositLoop_counts k.query ka dm false).2.1,
          (depositLoop_counts k.query ka dm false).2.2⟩
      · by_cases hcmp : limit.asFloat < amount.asFloat
        · simp [PrepareDeposit, hats, hdm, hlim, hcmp]
        · simp only [PrepareDeposit, hats, hdm, hlim, if_neg hcmp]
          exact ⟨(depositLoop_counts k.query ka dm false).2.1,
            (depositLoop_counts k.query ka dm false).2.2⟩
    · simp [PrepareDeposit, hats, hdm]
    · simp [PrepareDeposit, hats, hdm]

/-- C2: the address-acquisition loop of `PrepareDeposit` terminates (it is
definable as its single unrolling, the flag moving only from false to true)
and makes at most two address-listing calls, at most one of them with forced
generation; when the first listing yields no fresh address and the forced
listing yields exactly one, exactly two listing calls are made and that one
address is returned; when the forced listing still yields no fresh address,
the loop returns the generation-failed error with exactly one
forced-generation listing call. -/
theorem C2_loop_call_bounds :
    (∀ (query : QueryFn) (ka : String) (dm : depositMethod) (gen : Bool),
      (depositLoop query ka dm gen).2.1 ≤ 2
      ∧ (depositLoop query ka dm gen).2.2 ≤ 1)
    ∧ (∀ (k : KrakenAPI) (asset : String) (amount : Number),
      (PrepareDeposit k asset amount).2.1 ≤ 2
      ∧ (PrepareDeposit k asset amount).2.2 ≤ 1)
    ∧ (∀ (query : QueryFn) (ka : String) (dm : depositMethod)
        (addrs0 addrs1 : List depositAddress) (a : depositAddress),
      getDepositAddress query ka dm.method false = .ok addrs0 →
      keepOnlyNew addrs0 = [] →
      getDepositAddress query ka dm.method true = .ok addrs1 →
      keepOnlyNew addrs1 = [a] →
      depositLoop query ka dm false
        = (.ok ⟨dm.fee, a.address, a.expireTs⟩, 2, 1))
    ∧ (∀ (query : QueryFn) (ka : String) (dm : depositMethod)
        (addrs0 addrs1 : List depositAddress),
      getDepositAddress query ka dm.method false = .ok addrs0 →
      keepOnlyNew addrs0 = [] →
      getDepositAddress query ka dm.method true = .ok addrs1 →
      keepOnlyNew addrs1 = [] →
      depositLoop query ka dm false
        = (.err (.goErr "attempt to generate a new address failed"), 2, 1)) := by
  refine ⟨fun query ka dm gen => ⟨(depositLoop_counts query ka dm gen).2.1,
      (depositLoop_counts query ka dm gen).2.2⟩,
    fun k asset amount => PrepareDeposit_counts k asset amount, ?_, ?_⟩
  · intro query ka dm addrs0 addrs1 a h0 hk0 h1 hk1
    show depositIter query ka dm false _ = _
    rw [depositIter_retry query ka dm _ addrs0 h0 (by rw [hk0]; rfl),
      depositIter_getLast query ka dm true unreachableRetry addrs1 a h1
        (by rw [hk1]; rfl)]
    rfl
  · intro query ka dm addrs0 addrs1 h0 hk0 h1 hk1
    show depositIter query ka dm false _ = _
    rw [depositIter_retry query ka dm _ addrs0 h0 (by rw [hk0]; rfl),
      depositIter_genFailed query ka dm unreachableRetry addrs1 h1
        (by rw [hk1]; rfl)]

theorem depositIter_ok (query : QueryFn) (ka : String) (dm : depositMethod)
    (gen : Bool) (r : GoRes Err PrepareDepositResult × Nat × Nat)
    (rr : PrepareDepositResult)
    (h : (depositIter query ka dm gen r).1 = .ok rr) :
    (∃ addrs a, getDepositAddress query ka dm.method gen = .ok addrs ∧
      (keepOnlyNew addrs).getLast? = some a ∧
      rr = ⟨dm.fee, a.address, a.expireTs⟩)
    ∨ (gen = false ∧ r.1 = .ok rr) := by
  rcases depositIter_cases query ka dm gen r with
    ⟨e, hga, he⟩ | ⟨addrs, a, hga, hl, he⟩ | ⟨addrs, hga, hl, hgen, he⟩ |
    ⟨addrs, hga, hl, hgen, he⟩
  · rw [he] at h
    dsimp only at h
    split at h <;> simp at h
  · rw [he] at h
    dsimp only at h
    injection h with h
    exact .inl ⟨addrs, a, hga, hl, h.symm⟩
  · rw [he] at h
    simp at h
  · rw [he] at h
    exact .inr ⟨hgen, h⟩

theorem depositLoop_ok (query : QueryFn) (ka : String) (dm : depositMethod)
    (gen : Bool) (rr : PrepareDepositResult)
    (h : (depositLoop query ka dm gen).1 = .ok rr) :
    ∃ gen2 addrs a, getDepositAddress query ka dm.method gen2 = .ok addrs ∧
      (keepOnlyNew addrs).getLast? = some a ∧
      rr = ⟨dm.fee, a.address, a.expireTs⟩ := by
  rw [depositLoop_eq] at h
  rcases depositIter_ok query ka dm gen _ rr h with
    ⟨addrs, a, hga, hl, hr⟩ | ⟨_, h2⟩
  · exact ⟨gen, addrs, a, hga, hl, hr⟩
  · rw [depositLoop_eq] at h2
    rcases depositIter_ok query ka dm true _ rr h2 with
      ⟨addrs, a, hga, hl, hr⟩ | ⟨hgen2, _⟩
    · exact ⟨true, addrs, a, hga, hl, hr⟩
    · exact absurd hgen2 (by simp)

/-- C3: `PrepareDeposit` never returns a used (non-fresh) address: whenever
it returns successfully, the returned address is an element of a listed
address batch whose venue-reported `isNew` flag is true. -/
theorem C3_never_returns_used_address (k : KrakenAPI) (asset : String)
    (amount : Number) (r : PrepareDepositResult)
    (h : (PrepareDeposit k asset amount).1 = .ok r) :
    ∃ ka dm gen addrs a,
      k.assetToString asset = .ok ka ∧
      getDepositMethods k.query ka = .ok dm ∧
      getDepositAddress k.query ka dm.method gen = .ok addrs ∧
      a ∈ addrs ∧ a.isNew = true ∧ r.address = a.address := by
  rcases hats : k.assetToString asset with e | ka
  · simp only [PrepareDeposit, hats] at h
    simp at h
  · rcases hdm : getDepositMethods k.query ka with dm | e | m
    · have hloop : (depositLoop k.query ka dm false).1 = .ok r := by
        rcases hlim : dm.limit with _ | limit
        · simpa only [PrepareDeposit, hats, hdm, hlim] using h
        · by_cases hcmp : limit.asFloat < amount.asFloat
          · simp only [PrepareDeposit, hats, hdm, hlim, if_pos hcmp] at h
            simp at h
          · simpa only [PrepareDeposit, hats, hdm, hlim, if_neg hcmp] using h
      rcases depositLoop_ok k.query ka dm false r hloop with
        ⟨gen, addrs, a, hga, hl, hr⟩
      have hmem : a ∈ keepOnlyNew addrs := List.mem_of_getLast?_eq_some hl
      rcases mem_keepOnlyNew.mp hmem with ⟨hin, hnew⟩
      exact ⟨ka, dm, gen, addrs, a, rfl, hdm, hga, hin, hnew, by rw [hr]⟩
    · simp only [PrepareDeposit, hats, hdm] at h
      simp at h
    · simp only [PrepareDeposit, hats, hdm] at h
      simp at h

/-- Witness for C3: the concrete venue listing two fresh addresses, on which
`PrepareDeposit` returns the address "B". -/
theorem C3_witness :
    ∃ ka dm gen addrs a,
      cexAPI.assetToString "XLM" = .ok ka ∧
      getDepositMethods cexAPI.query ka = .ok dm ∧
      getDepositAddress cexAPI.query ka dm.method gen = .ok addrs ∧
      a ∈ addrs ∧ a.isNew = true ∧
      (PrepareDepositResult.mk none "B" 0).address = a.address :=
  C3_never_returns_used_address cexAPI "XLM" amount5 ⟨none, "B", 0⟩ (by decide)

theorem depositIter_not_above_limit (query : QueryFn) (ka : String)
    (dm : depositMethod) (gen : Bool)
    (r : GoRes Err PrepareDepositResult × Nat × Nat) (x l : Number)
    (hr : ∀ x l, r.1 ≠ .err (.depositAmountAboveLimit x l)) :
    (depositIter query ka dm gen r).1
      ≠ .err (.depositAmountAboveLimit x l) := by
  rcases depositIter_cases query ka dm gen r with
    ⟨e, hga, he⟩ | ⟨addrs, a, hga, hl, he⟩ | ⟨addrs, hga, hl, hgen, he⟩ |
    ⟨addrs, hga, hl, hgen, he⟩
  · rw [he]
    dsimp only
    split <;> simp
  · rw [he]
    simp
  · rw [he]
    simp
  · rw [he]
    exact hr x l

theorem depositIter_true_not_above_limit (query : QueryFn) (ka : String)
    (dm : depositMethod) (r : GoRes Err PrepareDepositResult × Nat × Nat)
    (x l : Number) :
    (depositIter query ka dm true r).1
      ≠ .err (.depositAmountAboveLimit x l) := by
  rcases depositIter_cases query ka dm true r with
    ⟨e, _, he⟩ | ⟨addrs, a, _, _, he⟩ | ⟨addrs, _, _, _, he⟩ |
    ⟨addrs, _, _, hgen, _⟩
  · rw [he]
    dsimp only
    split <;> simp
  · rw [he]
    simp
  · rw [he]
    simp
  · exact absurd hgen (by simp)

theorem depositLoop_not_above_limit (query : QueryFn) (ka : String)
    (dm : depositMethod) (gen : Bool) (x l : Number) :
    (depositLoop query ka dm gen).1 ≠ .err (.depositAmountAboveLimit x l) := by
  cases gen with
  | true =>
    simp only [depositLoop]
    exact depositIter_true_not_above_limit query ka dm unreachableRetry x l
  | false =>
    simp only [depositLoop]
    exact depositIter_not_above_limit query ka dm false _ x l
      (fun x1 l1 =>
        depositIter_true_not_above_limit query ka dm unreachableRetry x1 l1)

/-- C4: a venue-reported non-nil per-transaction limit with `amount > limit`
makes `PrepareDeposit` fail with the above-limit error carrying both the
amount and the limit, with zero address-listing calls made; with no limit or
`amount` not exceeding it, no above-limit error is ever returned and the
loop is entered (at least one address-listing call is made). -/
theorem C4_limit_enforcement :
    (∀ (k : KrakenAPI) (asset : String) (amount : Number) (ka : String)
        (dm : depositMethod) (limit : Number),
      k.assetToString asset = .ok ka →
      getDepositMethods k.query ka = .ok dm →
      dm.limit = some limit →
      limit.asFloat < amount.asFloat →
      PrepareDeposit k asset amount
        = (.err (.depositAmountAboveLimit amount limit), 0, 0))
    ∧ (∀ (k : KrakenAPI) (asset : String) (amount : Number) (ka : String)
        (dm : depositMethod),
      k.assetToString asset = .ok ka →
      getDepositMethods k.query ka = .ok dm →
      limitPasses dm amount = true →
      (∀ x l, (PrepareDeposit k asset amount).1
          ≠ .err (.depositAmountAboveLimit x l))
      ∧ 1 ≤ (PrepareDeposit k asset amount).2.1) := by
  constructor
  · intro k asset amount ka dm limit h1 h2 h3 h4
    simp only [PrepareDeposit, h1, h2, h3, if_pos h4]
  · intro k asset amount ka dm h1 h2 h3
    rw [PrepareDeposit_enters_loop k asset amount ka dm h1 h2 h3]
    exact ⟨fun x l => depositLoop_not_above_limit k.query ka dm false x l,
      (depositLoop_counts k.query ka dm false).1⟩

/-- C5: when an address-listing call inside `PrepareDeposit` fails with an
error whose message contains the venue's too-many-addresses signal, the loop
returns the dedicated too-many-deposit-addresses error; any other listing
error propagates unchanged (same message); and `PrepareDeposit`, once past
the limit check, is exactly that loop. -/
theorem C5_too_many_addresses_translation :
    (∀ (query : QueryFn) (ka : String) (dm : depositMethod) (gen : Bool)
        (e : String),
      getDepositAddress query ka dm.method gen = .error e →
      ((goStrContains e tooManySignal = true →
        (depositLoop query ka dm gen).1 = .err .tooManyDepositAddresses)
      ∧ (goStrContains e tooManySignal = false →
        (depositLoop query ka dm gen).1 = .err (.goErr e))))
    ∧ (∀ (k : KrakenAPI) (asset : String) (amount : Number) (ka : String)
        (dm : depositMethod),
      k.assetToString asset = .ok ka →
      getDepositMethods k.query ka = .ok dm →
      limitPasses dm amount = true →
      PrepareDeposit k asset amount = depositLoop k.query ka dm false) := by
  constructor
  · intro query ka dm gen e hga
    constructor
    · intro hc
      rw [depositLoop_eq, depositIter_error query ka dm gen _ e hga]
      simp [hc]
    · intro hc
      rw [depositLoop_eq, depositIter_error query ka dm gen _ e hga]
      simp [hc]
  · exact fun k asset amount ka dm h1 h2 h3 =>
      PrepareDeposit_enters_loop k asset amount ka dm h1 h2 h3

/-- The field-not-found error message for a key. -/
def fieldNotFoundErr (key : String) : String :=
  prefixFieldNotFound ++ ": " ++ key

theorem fieldNotFoundErr_has_pre (key : String) :
    goStrHasPre (fieldNotFoundErr key) prefixFieldNotFound = true := rfl

theorem makeParseError_not_fieldNotFound (field dataType methodAPI : String)
    (v : JValue) :
    goStrHasPre (makeParseError field dataType methodAPI v)
      prefixFieldNotFound = false := rfl

/-- C6: `parseString`, `parseBool` and `parseNumber` return the
field-not-found error (carrying the documented prefix) exactly when the key
is absent, and the type-mismatch error built from the expected type, the
actual value and the API context when the key is present at the wrong
dynamic type; the two are distinguishable by the prefix, as on the concrete
"fee" examples. -/
theorem C6_parser_error_taxonomy :
    (∀ (m : List (String × JValue)) (key ctx : String),
      mapLookup m key = none →
      parseString m key ctx = .error (fieldNotFoundErr key)
      ∧ parseBool m key ctx = .error (fieldNotFoundErr key)
      ∧ parseNumber m key ctx = .error (fieldNotFoundErr key)
      ∧ goStrHasPre (fieldNotFoundErr key) prefixFieldNotFound = true)
    ∧ (∀ (m : List (String × JValue)) (key ctx : String) (v : JValue),
      mapLookup m key = some v →
      ((∀ s, v ≠ .str s) →
        parseString m key ctx = .error (makeParseError key "string" ctx v))
      ∧ ((∀ b, v ≠ .bool b) →
        parseBool m key ctx = .error (makeParseError key "bool" ctx v))
      ∧ ((∀ s, v ≠ .str s) → (∀ f, v ≠ .num f) →
        parseNumber m key ctx = .error (makeParseError key "number" ctx v)))
    ∧ (∀ (field dataType methodAPI : String) (v : JValue),
      goStrHasPre (makeParseError field dataType methodAPI v)
        prefixFieldNotFound = false)
    ∧ (parseNumber [] "fee" "DepositMethods" = .error (fieldNotFoundErr "fee")
      ∧ goStrHasPre (fieldNotFoundErr "fee") prefixFieldNotFound = true
      ∧ parseNumber [("fee", .bool true)] "fee" "DepositMethods"
          = .error (makeParseError "fee" "number" "DepositMethods" (.bool true))
      ∧ goStrHasPre
          (makeParseError "fee" "number" "DepositMethods" (.bool true))
          prefixFieldNotFound = false) := by
  refine ⟨?_, ?_, ?_, ?_⟩
  · intro m key ctx h
    refine ⟨?_, ?_, ?_, fieldNotFoundErr_has_pre key⟩
    · simp [parseString, checkKeyPresent, h, fieldNotFoundErr]
    · simp [parseBool, checkKeyPresent, h, fieldNotFoundErr]
    · simp [parseNumber, checkKeyPresent, h, fieldNotFoundErr]
  · intro m key ctx v h
    refine ⟨?_, ?_, ?_⟩
    · intro hv
      cases v with
      | str s => exact absurd rfl (hv s)
      | num f => simp [parseString, checkKeyPresent, h]
      | bool b => simp [parseString, checkKeyPresent, h]
      | arr l => simp [parseString, checkKeyPresent, h]
      | obj l => simp [parseString, checkKeyPresent, h]
    · intro hv
      cases v with
      | bool b => exact absurd rfl (hv b)
      | str s => simp [parseBool, checkKeyPresent, h]
      | num f => simp [parseBool, checkKeyPresent, h]
      | arr l => simp [parseBool, checkKeyPresent, h]
      | obj l => simp [parseBool, checkKeyPresent, h]
    · intro hvs hvf
      cases v with
      | str s => exact absurd rfl (hvs s)
      | num f => exact absurd rfl (hvf f)
      | bool b => simp [parseNumber, checkKeyPresent, h]
      | arr l => simp [parseNumber, checkKeyPresent, h]
      | obj l => simp [parseNumber, checkKeyPresent, h]
  · exact fun field dataType methodAPI v =>
      makeParseError_not_fieldNotFound field dataType methodAPI v
  · exact ⟨by decide, by decide, by decide, by decide⟩

/-- C7: `parseNumber` dispatches on the dynamic representation of the field
(string parsed as a fixed-precision decimal at precision 10, float converted
at the same precision 10, any other representation a type-mismatch error),
and the string and float construction paths agree: the concrete field values
"12.3400000000" (string) and 12.34 (float) yield equal Numbers. -/
theorem C7_parseNumber_dispatch_and_agreement :
    (∀ (m : List (String × JValue)) (key ctx s : String),
      mapLookup m key = some (.str s) →
      parseNumber m key ctx = parseStringAsNumber m key ctx)
    ∧ (∀ (m : List (String × JValue)) (key ctx : String) (f : Rat),
      mapLookup m key = some (.num f) →
      parseNumber m key ctx = .ok (FromFloat f numberPrecision))
    ∧ (∀ (s : String) (f : Rat) (p : Nat),
      parseDecimal s = some f → FromString s p = .ok (FromFloat f p))
    ∧ (parseNumber [("fee", .str "12.3400000000")] "fee" "DepositMethods"
        = parseNumber [("fee", .num (mkRat 1234 100))] "fee" "DepositMethods"
      ∧ parseNumber [("fee", .str "12.3400000000")] "fee" "DepositMethods"
        = .ok (FromFloat (mkRat 1234 100) numberPrecision)) := by
  refine ⟨?_, ?_, ?_, by decide, by decide⟩
  · intro m key ctx s h
    simp [parseNumber, checkKeyPresent, h]
  · intro m key ctx f h
    simp [parseNumber, parseFloatAsNumber, checkKeyPresent, h]
  · intro s f p h
    simp [FromString, h]

/-- C9: when the DepositMethods query succeeds with an empty array,
`getDepositMethods` indexes the first element unconditionally and aborts
with the index-out-of-range panic (propagated by `PrepareDeposit`) instead
of returning an error; only a non-array response, or a non-map first
element, is handled by the error branches. -/
theorem C9_empty_deposit_methods_panics :
    (∀ (query : QueryFn) (asset : String),
      query "DepositMethods" [("asset", asset)] = .ok (.arr []) →
      getDepositMethods query asset = .panicked indexOutOfRangeMsg)
    ∧ (∀ (k : KrakenAPI) (asset ka : String) (amount : Number),
      k.assetToString asset = .ok ka →
      k.query "DepositMethods" [("asset", ka)] = .ok (.arr []) →
      (PrepareDeposit k asset amount).1 = .panicked indexOutOfRangeMsg)
    ∧ (∀ (query : QueryFn) (asset : String) (v : JValue),
      query "DepositMethods" [("asset", asset)] = .ok v →
      (∀ l, v ≠ .arr l) →
      getDepositMethods query asset
        = .err ("could not parse response type from DepositMethods: "
            ++ typeName v))
    ∧ (∀ (query : QueryFn) (asset : String) (x : JValue)
        (rest : List JValue),
      query "DepositMethods" [("asset", asset)] = .ok (.arr (x :: rest)) →
      (∀ m, x ≠ .obj m) →
      getDepositMethods query asset
        = .err ("could not parse inner response type of returned []interface {} from DepositMethods: "
            ++ typeName x)) := by
  refine ⟨?_, ?_, ?_, ?_⟩
  · intro query asset h
    simp [getDepositMethods, h]
  · intro k asset ka amount h1 h2
    have hg : getDepositMethods k.query ka = .panicked indexOutOfRangeMsg := by
      simp [getDepositMethods, h2]
    simp [PrepareDeposit, h1, hg]
  · intro query asset v h hv
    cases v with
    | arr l => exact absurd rfl (hv l)
    | str s => simp [getDepositMethods, h]
    | num f => simp [getDepositMethods, h]
    | bool b => simp [getDepositMethods, h]
    | obj m => simp [getDepositMethods, h]
  · intro query asset x rest h hx
    cases x with
    | obj m => exact absurd rfl (hx m)
    | str s => simp [getDepositMethods, h]
    | num f => simp [getDepositMethods, h]
    | bool b => simp [getDepositMethods, h]
    | arr l => simp [getDepositMethods, h]

theorem parseBool_wrong_type (m : List (String × JValue)) (key ctx : String)
    (v : JValue) (h : mapLookup m key = some v) (hv : ∀ b, v ≠ .bool b) :
    parseBool m key ctx = .error (makeParseError key "bool" ctx v) := by
  cases v with
  | bool b => exact absurd rfl (hv b)
  | str s => simp [parseBool, checkKeyPresent, h]
  | num f => simp [parseBool, checkKeyPresent, h]
  | arr l => simp [parseBool, checkKeyPresent, h]
  | obj l => simp [parseBool, checkKeyPresent, h]

/-- C10: a missing "new" field on a listed deposit address is not an error —
the address parses with `isNew = false` and such an address is never kept by
the freshness filter (hence never returned); any other `parseBool` failure
on "new" (a wrong-typed value) propagates as an error and fails the whole
listing. -/
theorem C10_missing_new_defaults_to_not_fresh :
    (∀ (m : List (String × JValue)) (addr : String) (en : Number),
      mapLookup m "new" = none →
      parseString m "address" "DepositAddresses" = .ok addr →
      parseNumber m "expiretm" "DepositAddresses" = .ok en →
      parseDepositAddress m = .ok ⟨addr, goInt64OfFloat en.asFloat, false⟩)
    ∧ (∀ (m : List (String × JValue)) (addr : String) (en : Number)
        (v : JValue),
      mapLookup m "new" = some v →
      (∀ b, v ≠ .bool b) →
      parseString m "address" "DepositAddresses" = .ok addr →
      parseNumber m "expiretm" "DepositAddresses" = .ok en →
      parseDepositAddress m
        = .error (makeParseError "new" "bool" "DepositAddresses" v))
    ∧ (∀ (m : List (String × JValue)) (rest : List JValue) (e : String),
      parseDepositAddress m = .error e →
      parseAddressList (.obj m :: rest) = .error e)
    ∧ (∀ (l : List depositAddress) (a : depositAddress),
      a.isNew = false → a ∉ keepOnlyNew l) := by
  refine ⟨?_, ?_, ?_, ?_⟩
  · intro m addr en h1 hpa hpn
    have hb : parseBool m "new" "DepositAddresses"
        = .error (prefixFieldNotFound ++ ": " ++ "new") := by
      simp [parseBool, checkKeyPresent, h1]
    simp [parseDepositAddress, hpa, hpn, hb,
      show goStrHasPre (prefixFieldNotFound ++ ": " ++ "new")
        prefixFieldNotFound = true from rfl]
  · intro m addr en v h1 hv hpa hpn
    have hb := parseBool_wrong_type m "new" "DepositAddresses" v h1 hv
    simp [parseDepositAddress, hpa, hpn, hb,
      makeParseError_not_fieldNotFound "new" "bool" "DepositAddresses" v]
  · intro m rest e h
    simp [parseAddressList, h]
  · intro l a hnew hmem
    rcases mem_keepOnlyNew.mp hmem with ⟨_, htrue⟩
    rw [hnew] at htrue
    exact Bool.false_ne_true htrue

/-- The conversion loops share one shape: convert each element in order,
abort on the first non-convertible element.  `hcons` is the defining
equation of the loop on a convertible head. -/
theorem convertLoop_spec {α β : Type} (f : α → Option β)
    (F : List α → Option (List β))
    (hnil : F [] = some [])
    (hcons : ∀ a rest b out, f a = some b → F rest = some out →
      F (a :: rest) = some (b :: out)) :
    ∀ l, (∀ x ∈ l, (f x).isSome = true) →
      ∃ out, F l = some out ∧ out.length = l.length
        ∧ ∀ i : Nat, out.get? i = (l.get? i).bind f := by
  intro l
  induction l with
  | nil =>
    intro _
    exact ⟨[], hnil, rfl, fun i => by cases i <;> simp⟩
  | cons a rest ih =>
    intro h
    have ha : (f a).isSome = true := h a (List.mem_cons_self a rest)
    rcases Option.isSome_iff_exists.mp ha with ⟨b, hb⟩
    rcases ih (fun x hx => h x (List.mem_cons_of_mem a hx)) with
      ⟨out, hF, hlen, hget⟩
    refine ⟨b :: out, hcons a rest b out hb hF, by simp [hlen], ?_⟩
    intro i
    cases i with
    | zero => simp [hb]
    | succ n => simpa using hget n

/-- C8: each conversion adapter (`ConvertOperation2TM`, `ConvertTM2MSO`,
`ConvertSellOfferBuildersToSellOps`) preserves ordering: on an input list
all of whose elements are convertible, the output has the same length and
its i-th element is the conversion of the i-th input element. -/
theorem C8_adapters_preserve_order :
    (∀ (B : Bool → String → Rate → Int → Option String → ManageOfferBuilder)
        (ops : List Operation),
      (∀ o ∈ ops, (convertOp2TMElem B o).isSome = true) →
      ∃ out, ConvertOperation2TM B ops = some out
        ∧ out.length = ops.length
        ∧ ∀ i : Nat, out.get? i = (ops.get? i).bind (convertOp2TMElem B))
    ∧ (∀ muts : List TransactionMutator,
      (∀ x ∈ muts, (convertTM2MSOElem x).isSome = true) →
      ∃ out, ConvertTM2MSO muts = some out
        ∧ out.length = muts.length
        ∧ ∀ i : Nat, out.get? i = (muts.get? i).bind convertTM2MSOElem)
    ∧ (∀ muts : List TransactionMutator,
      (∀ x ∈ muts, (convertSellOfferElem x).isSome = true) →
      ∃ out, ConvertSellOfferBuildersToSellOps muts = some out
        ∧ out.length = muts.length
        ∧ ∀ i : Nat, out.get? i = (muts.get? i).bind convertSellOfferElem) := by
  refine ⟨fun B => ?_, ?_, ?_⟩
  · exact convertLoop_spec (convertOp2TMElem B) (ConvertOperation2TM B) rfl
      (fun a rest b out hb hF => by simp [ConvertOperation2TM, hb, hF])
  · exact convertLoop_spec convertTM2MSOElem ConvertTM2MSO rfl
      (fun a rest b out hb hF => by simp [ConvertTM2MSO, hb, hF])
  · exact convertLoop_spec convertSellOfferElem ConvertSellOfferBuildersToSellOps
      rfl (fun a rest b out hb hF => by
        simp [ConvertSellOfferBuildersToSellOps, hb, hF])

end StablecoinEngine
